import Mathlib

/-!
Verification of the Research Park job-monitor pipeline (`update_jobs.py`,
`database.py`, `app.py`) against its specification.

The Python program is shallowly embedded: every function below is a direct
translation of the corresponding Python function; external effects (the HTTP
fetch of a feed page, the enrichment provider call, the JSON decoder of the
standard library, the database connection) are passed in as explicit values so
that each possible outcome of the effect can be quantified over.
-/

namespace RPJobs

/-- Badge Set: the structured-extraction schema fixed in the system prompt of
`extract_badges` (src/update_jobs.py). -/
structure Badges where
  min_gpa : Option String
  visa_sponsorship : Option Bool
  cpt_opt_required : Bool
  uiuc_only : Bool
  class_years : List String
  majors : List String
  job_type : String
  work_mode : Option String
  duration : Option String
deriving Repr, DecidableEq

/-- Job Record as built by `parse_job_board` and enriched by `main`
(src/update_jobs.py). `description_html` embeds the transient
`_description_html` key; `discovered_date` and `badges` embed the optional
keys added by the merge loop in `main` (absence = `none`). -/
structure Job where
  id : String
  company : String
  position : String
  link : String
  posted_date : String
  published_parsed : Option (List Nat)
  description_html : Option String
  discovered_date : Option String := none
  badges : Option Badges := none
deriving Repr, DecidableEq

/-- `find_new_jobs(current_jobs, existing_jobs)` (src/update_jobs.py line 166):
`seen_ids = {job["id"] for job in existing_jobs}` and keep the current jobs
whose id is not in that set. -/
def find_new_jobs (current_jobs existing_jobs : List Job) : List Job :=
  let seen_ids := existing_jobs.map Job.id
  current_jobs.filter (fun job => !(seen_ids.contains job.id))

/-- `existing_jobs_dict = {job["id"]: job for job in existing_jobs}` followed by
`.get(id)` (src/update_jobs.py line 596): a Python dict comprehension keeps the
last binding for a duplicated key, hence the lookup searches the reversed
list. -/
def dictGet (jobs : List Job) (i : String) : Option Job :=
  jobs.reverse.find? (fun j => j.id == i)

/-- The body of the carry-forward loop in `main` (src/update_jobs.py lines
598..607) applied to one current job: absent id gets
`discovered_date = now`; a present id copies `discovered_date` and `badges`
from the matching previous record when that record carries them. -/
def mergeOne (now : String) (existing_jobs : List Job) (job : Job) : Job :=
  if (existing_jobs.map Job.id).contains job.id then
    match dictGet existing_jobs job.id with
    | some existing_job =>
      let job1 :=
        match existing_job.discovered_date with
        | some d => { job with discovered_date := some d }
        | none => job
      match existing_job.badges with
      | some b => { job1 with badges := some b }
      | none => job1
    | none => job
  else
    { job with discovered_date := some now }

/-- The carry-forward loop of `main` over the whole current list
(src/update_jobs.py lines 594..607). -/
def mergeJobs (now : String) (current_jobs existing_jobs : List Job) : List Job :=
  current_jobs.map (mergeOne now existing_jobs)

/-- The markdown-fence stripping in `extract_badges` (src/update_jobs.py lines
392..394), applied when the raw text starts with three backticks:
"re.sub(r chevron-caret triple-fence (json)? whitespace, empty)" then
"re.sub(whitespace triple-fence end, empty)". -/
def stripCodeFences (raw : String) : String :=
  let r := raw.drop 3
  let r := if r.startsWith "json" then r.drop 4 else r
  let r := r.dropWhile Char.isWhitespace
  let t := r.dropRightWhile Char.isWhitespace
  if t.endsWith "```" then t.dropRight 3 else r

/-- `extract_badges(job)` (src/update_jobs.py lines 329..403). The external
effects are explicit arguments: `apiKey` is `os.environ.get("ANTHROPIC_API_KEY")`
(Python truthiness: unset or empty both skip), `providerCall` is the outcome of
the Anthropic client call (an exception or the raw response text), and
`parseJson` is the standard-library JSON decoder, returning `none` exactly when
`json.loads` raises `JSONDecodeError`. Every failure path returns `none`; no
exception escapes the function. -/
def extract_badges (apiKey : Option String) (descriptionHtml : String)
    (providerCall : Except String String)
    (parseJson : String → Option Badges) : Option Badges :=
  if (apiKey.getD "").isEmpty then none
  else if descriptionHtml.isEmpty then none
  else
    match providerCall with
    | .error _ => none
    | .ok text =>
      let raw := text.trim
      let raw := if raw.startsWith "```" then stripCodeFences raw else raw
      parseJson raw

/-- The enrichment step of `main` (src/update_jobs.py lines 612..616): a badge
result is attached only when extraction returned one; otherwise the job is left
untouched. -/
def applyBadges (job : Job) (badges : Option Badges) : Job :=
  match badges with
  | some b => { job with badges := some b }
  | none => job

/-- `is_internship(job)` (src/update_jobs.py line 489): "intern" occurs in the
lower-cased position title. -/
def is_internship (job : Job) : Bool :=
  decide ("intern".toList <:+: job.position.toLower.toList)

/-- `filter_jobs_by_preference(jobs, preference)` (src/update_jobs.py lines
492..499). -/
def filter_jobs_by_preference (jobs : List Job) (preference : String) : List Job :=
  if preference = "both" then jobs
  else if preference = "internship" then jobs.filter (fun j => is_internship j)
  else if preference = "fulltime" then jobs.filter (fun j => !(is_internship j))
  else jobs

/-! ### Run Ledger (`database.py`, `record_stats_snapshot`) -/

/-- One row of the `stats_snapshots` table (src/database.py lines 58..67).
The counts come from Python `len(...)` calls, hence naturals. -/
structure StatsSnapshot where
  jobs_on_board : Nat
  new_jobs_found : Nat
  active_subscribers : Nat
  total_jobs_ever : Nat
deriving Repr, DecidableEq

/-- `record_stats_snapshot(jobs_on_board, new_jobs_found, active_subscribers)`
(src/database.py lines 176..205). The ledger is the table ordered newest
first (the query is `ORDER BY id DESC LIMIT 1`, so `head?` is the previous
snapshot). `fail = true` is the exception path: the transaction is rolled
back, the ledger is unchanged and `False` is returned (non-fatal). -/
def record_stats_snapshot (fail : Bool) (ledger : List StatsSnapshot)
    (jobs_on_board new_jobs_found active_subscribers : Nat) :
    Bool × List StatsSnapshot :=
  if fail then (false, ledger)
  else
    let total_jobs_ever :=
      match ledger.head? with
      | some prev => prev.total_jobs_ever + new_jobs_found
      | none => jobs_on_board
    (true,
      { jobs_on_board := jobs_on_board, new_jobs_found := new_jobs_found,
        active_subscribers := active_subscribers,
        total_jobs_ever := total_jobs_ever } :: ledger)

/-- The inputs one run passes to `record_stats_snapshot`
(src/update_jobs.py line 653). -/
structure RunInput where
  jobs_on_board : Nat
  new_jobs_found : Nat
  active_subscribers : Nat
deriving Repr, DecidableEq

/-- The ledger produced by a chronological sequence of successful recordings,
starting from an empty table. -/
def ledgerOfRuns (runs : List RunInput) : List StatsSnapshot :=
  runs.foldl
    (fun ledger r =>
      (record_stats_snapshot false ledger
        r.jobs_on_board r.new_jobs_found r.active_subscribers).2)
    []

/-! ### Subscriber Store (`database.py`) -/

/-- One row of the `subscribers` table (src/database.py lines 36..47).
`preference` is nullable in the schema, hence `Option` (read back through
`COALESCE(preference, 'both')`). -/
structure SubRow where
  email : String
  unsubscribe_token : String
  preference : Option String
  active : Bool
  confirmed : Bool
deriving Repr, DecidableEq

/-- The preference normalization at the top of `add_subscriber`
(src/database.py lines 74..75). -/
def normalizePreference (p : String) : String :=
  if p = "internship" ∨ p = "fulltime" ∨ p = "both" then p else "both"

/-- The result dictionary returned by `add_subscriber`. -/
structure AddResult where
  success : Bool
  message : String
  token : Option String := none
  needs_confirm : Bool := false
deriving Repr, DecidableEq

/-- `add_subscriber(email, preference)` (src/database.py lines 72..110).
`token` is the freshly generated `uuid.uuid4()` value; `fail = true` is the
exception path (transaction rolled back, failure result returned). The
`SELECT` is modelled by `find?` on the table and each `UPDATE ... WHERE
email = %s` by a map over the rows with that email. -/
def add_subscriber (fail : Bool) (db : List SubRow)
    (email preference token : String) : AddResult × List SubRow :=
  let pref := normalizePreference preference
  if fail then
    ({ success := false, message := "Failed to subscribe. Please try again." }, db)
  else
    match db.find? (fun r => r.email == email) with
    | some row =>
      if row.active && row.confirmed then
        ({ success := true, message := "Already subscribed!" }, db)
      else if row.active && !row.confirmed then
        ({ success := true,
           message := "Check your email to confirm your subscription.",
           token := some token, needs_confirm := true },
         db.map (fun r =>
           if r.email == email then
             { r with unsubscribe_token := token, preference := some pref }
           else r))
      else
        ({ success := true,
           message := "Check your email to confirm your subscription.",
           token := some token, needs_confirm := true },
         db.map (fun r =>
           if r.email == email then
             { r with active := true, confirmed := false,
                      unsubscribe_token := token, preference := some pref }
           else r))
    | none =>
      ({ success := true,
         message := "Check your email to confirm your subscription.",
         token := some token, needs_confirm := true },
       db ++ [{ email := email, unsubscribe_token := token,
                preference := some pref, active := true, confirmed := false }])

/-- `remove_subscriber(token)` (src/database.py lines 130..144):
`UPDATE subscribers SET active = FALSE WHERE unsubscribe_token = %s AND
active = TRUE`, returning whether any row was updated. `fail = true` is the
exception path (rolled back, `False`). -/
def remove_subscriber (fail : Bool) (db : List SubRow) (token : String) :
    Bool × List SubRow :=
  if fail then (false, db)
  else
    (db.any (fun r => r.unsubscribe_token == token && r.active),
     db.map (fun r =>
       if r.unsubscribe_token == token && r.active then
         { r with active := false }
       else r))

/-! ### Feed pagination (`update_jobs.py`, `parse_job_board`) -/

def JOBS_PER_PAGE : Nat := 10
def MAX_PAGES : Nat := 20

/-- The outcome of `fetch_rss_page(page)` after its internal retries, as seen
by `parse_job_board`: `none` when every attempt failed (or the parsed feed is
falsy), otherwise the normalized entries of the page. A feed object with an
empty `entries` list is `some []`. -/
def FetchOutcome : Type := Nat → Option (List Job)

/-- The page loop of `parse_job_board` (src/update_jobs.py lines 119..163),
starting at `page`: stop on a failed fetch, an empty page, or after a short
page (< `JOBS_PER_PAGE` entries), and never go past `MAX_PAGES`. Since a
nonempty `feed.entries` maps to a nonempty `page_jobs`, the second
`if not page_jobs: break` coincides with the entries emptiness test. -/
def collectPages (fetch : FetchOutcome) (page : Nat) : List Job :=
  if _h : page ≤ MAX_PAGES then
    match fetch page with
    | none => []
    | some page_jobs =>
      if page_jobs.isEmpty then []
      else if page_jobs.length < JOBS_PER_PAGE then page_jobs
      else page_jobs ++ collectPages fetch (page + 1)
  else []
termination_by MAX_PAGES + 1 - page

/-- `parse_job_board()` (src/update_jobs.py line 119): the loop starts at
page 1 with an empty accumulator. -/
def parse_job_board (fetch : FetchOutcome) : List Job :=
  collectPages fetch 1

/-- Number of pages the loop starting at `page` fetches before stopping. -/
def pagesFetched (fetch : FetchOutcome) (page : Nat) : Nat :=
  if _h : page ≤ MAX_PAGES then
    match fetch page with
    | none => 1
    | some page_jobs =>
      if page_jobs.isEmpty then 1
      else if page_jobs.length < JOBS_PER_PAGE then 1
      else 1 + pagesFetched fetch (page + 1)
  else 0
termination_by MAX_PAGES + 1 - page

/-- A page outcome on which the loop stops fetching: a failed fetch, zero
entries, or a short page. -/
def stopPage (outcome : Option (List Job)) : Prop :=
  outcome = none ∨ outcome = some [] ∨
    ∃ entries, outcome = some entries ∧ entries.length < JOBS_PER_PAGE

/-! ### New-jobs artifact (`update_jobs.py`, `main`) -/

/-- Content of the `new_jobs.json` file. `records l` is a serialized job
list; `empty` is a zero-byte file. -/
inductive ArtifactContent where
  | records : List Job → ArtifactContent
  | empty : ArtifactContent
deriving Repr, DecidableEq

/-- The per-job dictionary comprehension dropping `_description_html` before
serialization (src/update_jobs.py lines 635..638). -/
def stripDescription (j : Job) : Job :=
  { j with description_html := none }

/-- The artifact step of `main` (src/update_jobs.py lines 627..643): with new
jobs the file is opened in write mode (truncating whatever was there) and the
stripped records are dumped; with none, `Path("new_jobs.json").touch()` runs,
which creates an empty file when absent but leaves an existing file's content
untouched. `prior` is the file's content before the run (`none` = no file). -/
def writeNewJobsArtifact (prior : Option ArtifactContent)
    (new_jobs : List Job) : ArtifactContent :=
  if new_jobs.isEmpty then
    match prior with
    | some c => c
    | none => ArtifactContent.empty
  else ArtifactContent.records (new_jobs.map stripDescription)

/-! ### Subscriber read and notification fan-out -/

/-- The subscriber dictionaries returned by `get_active_subscribers`
(src/database.py line 148). -/
structure Subscriber where
  email : String
  unsubscribe_token : String
  preference : String
deriving Repr, DecidableEq

/-- `get_active_subscribers()` (src/database.py lines 147..158): select
`email`, `unsubscribe_token`, `COALESCE(preference, 'both')` where
`active AND confirmed`; any database exception yields `[]`. `readOutcome` is
the outcome of the connection/query: either an error or the table rows. -/
def get_active_subscribers (readOutcome : Except String (List SubRow)) :
    List Subscriber :=
  match readOutcome with
  | .error _ => []
  | .ok rows =>
    (rows.filter (fun r => r.active && r.confirmed)).map
      (fun r => ⟨r.email, r.unsubscribe_token, r.preference.getD "both"⟩)

/-- The recipient plan of `send_email` (src/update_jobs.py lines 465..575),
assuming mail credentials are present and the transport succeeds: each admin
recipient gets every new job; each database subscriber not already in the
admin list gets the preference-filtered list, and is skipped entirely when
that list is empty. -/
def send_email_plan (admin_recipients : List String)
    (readOutcome : Except String (List SubRow)) (new_jobs : List Job) :
    List (String × List Job) :=
  let db_subscribers := get_active_subscribers readOutcome
  if admin_recipients.isEmpty && db_subscribers.isEmpty then []
  else
    admin_recipients.map (fun r => (r, new_jobs)) ++
      db_subscribers.filterMap (fun sub =>
        if admin_recipients.contains sub.email then none
        else
          let filtered := filter_jobs_by_preference new_jobs sub.preference
          if filtered.isEmpty then none else some (sub.email, filtered))

/-- A concrete job record used to instantiate witness theorems. -/
def sampleJob : Job :=
  { id := "https://researchpark.illinois.edu/?p=1001"
    company := "Acme Corp"
    position := "Software Engineering Intern"
    link := "https://researchpark.illinois.edu/job/1001"
    posted_date := "Mon, 03 Nov 2025 15:45:00 +0000"
    published_parsed := some [2025, 11, 3, 15, 45, 0]
    description_html := some "<p>desc</p>" }

/-- A second concrete job record, not an internship, for witnesses. -/
def sampleJob2 : Job :=
  { id := "https://researchpark.illinois.edu/?p=1002"
    company := "TechStart Inc"
    position := "Senior Data Scientist"
    link := "https://researchpark.illinois.edu/job/1002"
    posted_date := ""
    published_parsed := none
    description_html := none }

/-! ## Claims -/

/-- C1: `find_new_jobs` returns exactly the subsequence of the current list
whose id does not occur among the previous snapshot's ids, in encounter
order; with an empty previous snapshot every current job is new. -/
theorem c1_new_jobs_exactly_unseen (current existing : List Job) :
    (find_new_jobs current existing).Sublist current ∧
    find_new_jobs current existing =
      current.filter (fun j => decide (j.id ∉ existing.map Job.id)) ∧
    find_new_jobs current [] = current := by
  refine ⟨List.filter_sublist current, ?_, ?_⟩
  · unfold find_new_jobs
    refine List.filter_congr ?_
    intro j _
    simp only [List.contains, List.elem_eq_mem, decide_not]
  · simp [find_new_jobs]

/-- C4: preference `internship` keeps exactly the jobs whose position title
contains "intern" case-insensitively, `fulltime` keeps exactly the
complement, `both` keeps every job; order is preserved because each branch is
a `filter` of the input list. -/
theorem c4_preference_filter (jobs : List Job) :
    filter_jobs_by_preference jobs "internship" =
      jobs.filter (fun j => decide ("intern".toList <:+: j.position.toLower.toList)) ∧
    filter_jobs_by_preference jobs "fulltime" =
      jobs.filter (fun j => !decide ("intern".toList <:+: j.position.toLower.toList)) ∧
    filter_jobs_by_preference jobs "both" = jobs := by
  refine ⟨?_, ?_, ?_⟩ <;>
    simp [filter_jobs_by_preference, is_internship]

/-- C10: a failed database read in `get_active_subscribers` yields the empty
subscriber list rather than an exception, so the notification fan-out of
`send_email` degrades to the admin recipients only. -/
theorem c10_failed_subscriber_read_admin_only (e : String)
    (admin_recipients : List String) (new_jobs : List Job) :
    get_active_subscribers (.error e) = [] ∧
    send_email_plan admin_recipients (.error e) new_jobs =
      admin_recipients.map (fun r => (r, new_jobs)) := by
  refine ⟨rfl, ?_⟩
  cases admin_recipients <;>
    simp [send_email_plan, get_active_subscribers]

/-- C3: every enrichment failure (missing or empty credential, empty
description, provider exception, response that the JSON decoder rejects)
makes `extract_badges` return `none` — it is a total function, so no
exception crosses its boundary — and the job then proceeds with its badge
field untouched. -/
theorem c3_enrichment_failure_yields_no_badges (apiKey : Option String)
    (descriptionHtml : String) (providerCall : Except String String)
    (parseJson : String → Option Badges) (job : Job)
    (hfail : apiKey.getD "" = "" ∨ descriptionHtml = "" ∨
      (∃ e, providerCall = .error e) ∨
      (∃ text, providerCall = .ok text ∧
        parseJson (let raw := text.trim;
          if raw.startsWith "```" then stripCodeFences raw else raw) = none)) :
    extract_badges apiKey descriptionHtml providerCall parseJson = none ∧
    applyBadges job (extract_badges apiKey descriptionHtml providerCall parseJson)
      = job := by
  have hnone : extract_badges apiKey descriptionHtml providerCall parseJson = none := by
    rcases hfail with h | h | ⟨e, h⟩ | ⟨text, h, hparse⟩
    · have hk : (apiKey.getD "").isEmpty = true := by rw [h]; decide
      simp [extract_badges, hk]
    · by_cases hk : (apiKey.getD "").isEmpty
      · simp [extract_badges, hk]
      · have hd : descriptionHtml.isEmpty = true := by rw [h]; decide
        simp [extract_badges, hk, hd]
    · by_cases hk : (apiKey.getD "").isEmpty
      · simp [extract_badges, hk]
      · by_cases hd : descriptionHtml.isEmpty
        · simp [extract_badges, hk, hd]
        · simp [extract_badges, hk, hd, h]
    · by_cases hk : (apiKey.getD "").isEmpty
      · simp [extract_badges, hk]
      · by_cases hd : descriptionHtml.isEmpty
        · simp [extract_badges, hk, hd]
        · simp only [extract_badges, hk, hd, h, Bool.false_eq_true,
            if_false]
          simpa using hparse
  exact ⟨hnone, by rw [hnone]; rfl⟩

/-- C3 witness: a provider response that is not well-formed JSON, on a job
with a nonempty description and a present credential, produces no badge set
and leaves the job unchanged. -/
theorem c3_witness :
    extract_badges (some "sk-key") "<p>desc</p>" (.ok "not json")
      (fun _ => none) = none ∧
    applyBadges sampleJob
      (extract_badges (some "sk-key") "<p>desc</p>" (.ok "not json")
        (fun _ => none)) = sampleJob :=
  c3_enrichment_failure_yields_no_badges (some "sk-key") "<p>desc</p>"
    (.ok "not json") (fun _ => none) sampleJob
    (Or.inr (Or.inr (Or.inr ⟨"not json", rfl, rfl⟩)))

/-- C9 counterexample: with no new jobs the code runs `Path.touch()`, which
does not truncate an existing file; a prior artifact holding one record is
left holding it, not rewritten to an empty marker as the claim states. -/
theorem c9_counterexample :
    ¬ (writeNewJobsArtifact (some (ArtifactContent.records [sampleJob])) [] =
        ArtifactContent.empty) := by
  simp [writeNewJobsArtifact]

/-- C9 (amended): when jobs are new the artifact is rewritten to exactly
those records minus the transient description; when none are new the file is
merely touched — created empty only if absent, otherwise its prior content is
preserved. -/
theorem c9_artifact_contents (prior : Option ArtifactContent)
    (new_jobs : List Job) :
    (new_jobs ≠ [] →
      writeNewJobsArtifact prior new_jobs =
        ArtifactContent.records (new_jobs.map stripDescription)) ∧
    (new_jobs = [] →
      writeNewJobsArtifact prior new_jobs = prior.getD ArtifactContent.empty) := by
  constructor
  · intro h
    simp [writeNewJobsArtifact, h]
  · intro h
    subst h
    cases prior <;> simp [writeNewJobsArtifact]

/-- C9 witness: one new job is written as its stripped record; no new jobs
over a missing file leaves the empty marker. -/
theorem c9_witness :
    writeNewJobsArtifact none [sampleJob] =
      ArtifactContent.records [stripDescription sampleJob] ∧
    writeNewJobsArtifact none [] = ArtifactContent.empty :=
  ⟨by
    have h := (c9_artifact_contents none [sampleJob]).1 (by simp)
    simpa using h,
   (c9_artifact_contents none []).2 rfl⟩

/-- Under the snapshot invariant that ids are unique, the identity-keyed
dictionary lookup returns exactly the snapshot record carrying the looked-up
id. -/
theorem dictGet_eq_of_nodup (existing : List Job)
    (huniq : (existing.map Job.id).Nodup) (prev : Job) (hmem : prev ∈ existing) :
    dictGet existing prev.id = some prev := by
  unfold dictGet
  have hmem' : prev ∈ existing.reverse := List.mem_reverse.mpr hmem
  have hsome : (existing.reverse.find? (fun j => j.id == prev.id)).isSome := by
    rw [List.find?_isSome]
    exact ⟨prev, hmem', by simp⟩
  obtain ⟨y, hy⟩ := Option.isSome_iff_exists.mp hsome
  have hymem : y ∈ existing.reverse := List.mem_of_find?_eq_some hy
  have hyid : y.id = prev.id := by
    have := List.find?_some hy
    simpa using this
  have : y = prev :=
    List.inj_on_of_nodup_map huniq (List.mem_reverse.mp hymem) hmem hyid
  rw [hy, this]

/-- C2: the carry-forward step of `main` is a per-job map; a job whose id is
absent from the previous snapshot gets `discovered_date = now` and no other
field changed; a job whose id matches a previous record takes that record's
`discovered_date` and `badges` whenever they are set — hence, once set, both
fields survive every later run in which the job is still listed — and keeps
every other field from the current fetch. -/
theorem c2_carry_forward (now : String) (existing : List Job) (job : Job)
    (huniq : (existing.map Job.id).Nodup) :
    (∀ current : List Job,
      mergeJobs now current existing = current.map (mergeOne now existing)) ∧
    (job.id ∉ existing.map Job.id →
      mergeOne now existing job = { job with discovered_date := some now }) ∧
    (∀ prev ∈ existing, prev.id = job.id →
      mergeOne now existing job =
        { job with
          discovered_date :=
            if prev.discovered_date.isSome then prev.discovered_date
            else job.discovered_date,
          badges :=
            if prev.badges.isSome then prev.badges else job.badges }) := by
  refine ⟨fun _ => rfl, ?_, ?_⟩
  · intro habs
    have hc : (existing.map Job.id).contains job.id = false := by
      simp only [List.contains, List.elem_eq_mem]
      exact decide_eq_false habs
    unfold mergeOne
    rw [if_neg (by rw [hc]; exact Bool.false_ne_true)]
  · intro prev hprev hid
    have hc : (existing.map Job.id).contains job.id = true := by
      simp only [List.contains, List.elem_eq_mem]
      exact decide_eq_true (List.mem_map.mpr ⟨prev, hprev, hid⟩)
    have hd : dictGet existing job.id = some prev := by
      rw [← hid]
      exact dictGet_eq_of_nodup existing huniq prev hprev
    unfold mergeOne
    rw [if_pos hc, hd]
    cases hdisc : prev.discovered_date <;> cases hb : prev.badges <;>
      simp [hdisc, hb]

/-- C2 witness: a one-job previous snapshot with `discovered_date` and
`badges` set; the carried-over job inherits both, and a fresh id gets the run
time. -/
theorem c2_witness :
    (mergeJobs "2026-01-01T00:00:00"
        [{ sampleJob2 with id := sampleJob.id }] [sampleJob] =
      [{ sampleJob2 with id := sampleJob.id }].map
        (mergeOne "2026-01-01T00:00:00" [sampleJob])) ∧
    (sampleJob2.id ∉ [sampleJob].map Job.id →
      mergeOne "2026-01-01T00:00:00" [sampleJob] sampleJob2 =
        { sampleJob2 with discovered_date := some "2026-01-01T00:00:00" }) ∧
    (∀ prev ∈ [sampleJob], prev.id = sampleJob2.id →
      mergeOne "2026-01-01T00:00:00" [sampleJob] sampleJob2 =
        { sampleJob2 with
          discovered_date :=
            if prev.discovered_date.isSome then prev.discovered_date
            else sampleJob2.discovered_date,
          badges :=
            if prev.badges.isSome then prev.badges else sampleJob2.badges }) := by
  have h := c2_carry_forward "2026-01-01T00:00:00" [sampleJob] sampleJob2
    (by decide)
  exact ⟨h.1 [{ sampleJob2 with id := sampleJob.id }], h.2.1, h.2.2⟩

/-- C7: after a token-matched unsubscribe succeeds (row set inactive, token
kept), repeating the request with the same token returns the non-error
"already removed" result `false` and mutates nothing. -/
theorem c7_unsubscribe_idempotent (db : List SubRow) (token : String)
    (r : SubRow) (hr : r ∈ db) (htok : r.unsubscribe_token = token)
    (hact : r.active = true) :
    (remove_subscriber false db token).1 = true ∧
    { r with active := false } ∈ (remove_subscriber false db token).2 ∧
    (remove_subscriber false (remove_subscriber false db token).2 token).1
      = false ∧
    (remove_subscriber false (remove_subscriber false db token).2 token).2
      = (remove_subscriber false db token).2 := by
  have hp : (r.unsubscribe_token == token && r.active) = true := by
    rw [htok, hact]; simp
  simp only [remove_subscriber, Bool.false_eq_true, if_false]
  have hfix : ∀ x ∈ db.map (fun y =>
      if y.unsubscribe_token == token && y.active then
        { y with active := false } else y),
      (x.unsubscribe_token == token && x.active) = false := by
    intro x hx
    obtain ⟨y, _, rfl⟩ := List.mem_map.mp hx
    by_cases hpy : (y.unsubscribe_token == token && y.active) = true
    · rw [if_pos hpy]; simp
    · rw [if_neg hpy]; simpa using hpy
  refine ⟨?_, ?_, ?_, ?_⟩
  · rw [List.any_eq_true]
    exact ⟨r, hr, hp⟩
  · have heq : ({ r with active := false } : SubRow) =
        (if r.unsubscribe_token == token && r.active then
          { r with active := false } else r) := (if_pos hp).symm
    rw [heq]
    exact List.mem_map_of_mem _ hr
  · rw [List.any_eq_false]
    intro x hx
    simpa using hfix x hx
  · have hid : ∀ x ∈ db.map (fun y =>
        if y.unsubscribe_token == token && y.active then
          { y with active := false } else y),
        (if x.unsubscribe_token == token && x.active then
          { x with active := false } else x) = x := by
      intro x hx
      rw [if_neg (by simp [hfix x hx])]
    rw [List.map_congr_left hid]
    simp

/-- A concrete active+confirmed subscriber row for witnesses. -/
def sampleRow : SubRow :=
  { email := "a@illinois.edu", unsubscribe_token := "tok-1",
    preference := some "both", active := true, confirmed := true }

/-- A concrete pending (active, unconfirmed) subscriber row for witnesses. -/
def samplePending : SubRow :=
  { email := "b@illinois.edu", unsubscribe_token := "tok-old",
    preference := some "both", active := true, confirmed := false }

/-- C7 witness: a one-row table with an active subscriber; unsubscribing via
the token succeeds, the repeat returns `false` and changes nothing. -/
theorem c7_witness :
    (remove_subscriber false [sampleRow] "tok-1").1 = true ∧
    { sampleRow with active := false } ∈
      (remove_subscriber false [sampleRow] "tok-1").2 ∧
    (remove_subscriber false (remove_subscriber false [sampleRow] "tok-1").2
      "tok-1").1 = false ∧
    (remove_subscriber false (remove_subscriber false [sampleRow] "tok-1").2
      "tok-1").2 = (remove_subscriber false [sampleRow] "tok-1").2 :=
  c7_unsubscribe_idempotent [sampleRow] "tok-1" sampleRow (by decide) rfl rfl

/-- C6: `add_subscriber` is idempotent per lifecycle state. An
active+confirmed row yields the non-error "Already subscribed!" result and no
table mutation; a pending row is updated in place with the fresh token and
normalized preference, `needs_confirm` is returned and the set of stored
emails is unchanged (no duplicate row); an inactive row is reactivated into
pending (active, unconfirmed, fresh token), again without a new row. -/
theorem c6_add_subscriber_idempotent (db : List SubRow)
    (email preference token : String) (row : SubRow)
    (hfind : db.find? (fun r => r.email == email) = some row) :
    (row.active = true → row.confirmed = true →
      add_subscriber false db email preference token =
        ({ success := true, message := "Already subscribed!" }, db)) ∧
    (row.active = true → row.confirmed = false →
      (add_subscriber false db email preference token).1.needs_confirm = true ∧
      (add_subscriber false db email preference token).1.token = some token ∧
      (add_subscriber false db email preference token).2 =
        db.map (fun r =>
          if r.email == email then
            { r with unsubscribe_token := token,
                     preference := some (normalizePreference preference) }
          else r) ∧
      (add_subscriber false db email preference token).2.map SubRow.email =
        db.map SubRow.email) ∧
    (row.active = false →
      (add_subscriber false db email preference token).1.needs_confirm = true ∧
      (add_subscriber false db email preference token).2 =
        db.map (fun r =>
          if r.email == email then
            { r with active := true, confirmed := false,
                     unsubscribe_token := token,
                     preference := some (normalizePreference preference) }
          else r) ∧
      (add_subscriber false db email preference token).2.map SubRow.email =
        db.map SubRow.email) := by
  simp only [add_subscriber, Bool.false_eq_true, if_false, hfind]
  refine ⟨?_, ?_, ?_⟩
  · intro ha hcf
    rw [ha, hcf]
    simp
  · intro ha hcf
    rw [ha, hcf]
    simp only [Bool.not_false, Bool.and_true, Bool.and_false,
      Bool.false_eq_true, if_false, if_true]
    refine ⟨?_, ?_, ?_, ?_⟩ <;> try trivial
    rw [List.map_map]
    refine List.map_congr_left ?_
    intro x _
    by_cases hx : (x.email == email) = true <;>
      simp [Function.comp, hx]
  · intro ha
    rw [ha]
    simp only [Bool.false_and, Bool.false_eq_true, if_false]
    refine ⟨?_, ?_, ?_⟩ <;> try trivial
    rw [List.map_map]
    refine List.map_congr_left ?_
    intro x _
    by_cases hx : (x.email == email) = true <;>
      simp [Function.comp, hx]

/-- C6 witness: re-adding a pending subscriber reissues the token in place,
reports `needs_confirm`, and leaves exactly one stored email. -/
theorem c6_witness :
    (samplePending.active = true → samplePending.confirmed = true →
      add_subscriber false [samplePending] "b@illinois.edu" "internship"
          "tok-new" =
        ({ success := true, message := "Already subscribed!" },
          [samplePending])) ∧
    (samplePending.active = true → samplePending.confirmed = false →
      (add_subscriber false [samplePending] "b@illinois.edu" "internship"
        "tok-new").1.needs_confirm = true ∧
      (add_subscriber false [samplePending] "b@illinois.edu" "internship"
        "tok-new").1.token = some "tok-new" ∧
      (add_subscriber false [samplePending] "b@illinois.edu" "internship"
        "tok-new").2 =
        [samplePending].map (fun r =>
          if r.email == "b@illinois.edu" then
            { r with unsubscribe_token := "tok-new",
                     preference := some (normalizePreference "internship") }
          else r) ∧
      (add_subscriber false [samplePending] "b@illinois.edu" "internship"
        "tok-new").2.map SubRow.email = [samplePending].map SubRow.email) ∧
    (samplePending.active = false →
      (add_subscriber false [samplePending] "b@illinois.edu" "internship"
        "tok-new").1.needs_confirm = true ∧
      (add_subscriber false [samplePending] "b@illinois.edu" "internship"
        "tok-new").2 =
        [samplePending].map (fun r =>
          if r.email == "b@illinois.edu" then
            { r with active := true, confirmed := false,
                     unsubscribe_token := "tok-new",
                     preference := some (normalizePreference "internship") }
          else r) ∧
      (add_subscriber false [samplePending] "b@illinois.edu" "internship"
        "tok-new").2.map SubRow.email = [samplePending].map SubRow.email) :=
  c6_add_subscriber_idempotent [samplePending] "b@illinois.edu" "internship"
    "tok-new" samplePending (by decide)

/-- Appending one successful recording extends the ledger by one snapshot
computed from the previous newest entry. -/
theorem ledgerOfRuns_concat (runs : List RunInput) (r : RunInput) :
    ledgerOfRuns (runs ++ [r]) =
      (record_stats_snapshot false (ledgerOfRuns runs)
        r.jobs_on_board r.new_jobs_found r.active_subscribers).2 := by
  unfold ledgerOfRuns
  rw [List.foldl_append]
  rfl

/-- C5: over any chronological sequence of successful recordings (ledger kept
newest first), the oldest entry's `total_jobs_ever` is the seeding run's
`jobs_on_board`; each entry's total is the previous entry's total plus its
own `new_jobs_found`; totals are monotonically non-decreasing; and the newest
entry's total equals the seed plus the sum of `new_jobs_found` over all
later runs. -/
theorem c5_total_jobs_ever (r0 : RunInput) (rest : List RunInput) :
    (ledgerOfRuns (r0 :: rest)).length = rest.length + 1 ∧
    (∃ seedEntry, (ledgerOfRuns (r0 :: rest)).getLast? = some seedEntry ∧
      seedEntry.total_jobs_ever = r0.jobs_on_board) ∧
    (∃ latest, (ledgerOfRuns (r0 :: rest)).head? = some latest ∧
      latest.total_jobs_ever =
        r0.jobs_on_board + (rest.map RunInput.new_jobs_found).sum) ∧
    List.Chain' (fun newer older =>
      newer.total_jobs_ever = older.total_jobs_ever + newer.new_jobs_found)
      (ledgerOfRuns (r0 :: rest)) ∧
    List.Chain' (fun newer older =>
      older.total_jobs_ever ≤ newer.total_jobs_ever)
      (ledgerOfRuns (r0 :: rest)) := by
  induction rest using List.reverseRecOn with
  | nil =>
    refine ⟨rfl, ⟨_, rfl, rfl⟩, ⟨_, rfl, by simp⟩, ?_, ?_⟩ <;>
      simp [ledgerOfRuns, record_stats_snapshot]
  | append_singleton rs r ih =>
    obtain ⟨hlen, ⟨seedEntry, hlast, hseed⟩, ⟨latest, hhead, htot⟩,
      hchain, hmono⟩ := ih
    have hstep : ledgerOfRuns (r0 :: (rs ++ [r])) =
        (record_stats_snapshot false (ledgerOfRuns (r0 :: rs))
          r.jobs_on_board r.new_jobs_found r.active_subscribers).2 := by
      rw [← List.cons_append, ledgerOfRuns_concat]
    cases hL : ledgerOfRuns (r0 :: rs) with
    | nil => rw [hL] at hhead; cases hhead
    | cons a t =>
      rw [hL] at hhead hlast hlen hchain hmono
      have ha : a = latest := by
        simpa using hhead
      subst ha
      rw [hstep, hL]
      simp only [record_stats_snapshot, Bool.false_eq_true, if_false,
        List.head?_cons]
      refine ⟨?_, ⟨seedEntry, ?_, hseed⟩, ⟨_, rfl, ?_⟩, ?_, ?_⟩
      · simpa using hlen
      · rw [List.getLast?_cons_cons]
        exact hlast
      · simp only [List.map_append, List.sum_append, List.map_cons,
          List.map_nil, List.sum_cons, List.sum_nil]
        omega
      · rw [List.chain'_cons']
        exact ⟨fun y hy => by simp at hy; rw [← hy], hchain⟩
      · rw [List.chain'_cons']
        refine ⟨fun y hy => ?_, hmono⟩
        simp at hy
        rw [← hy]
        exact Nat.le_add_right _ _


/-- Characterization of the page loop from an arbitrary starting page within
the ceiling: it fetches `pagesFetched` many pages (at least one), never runs
past `MAX_PAGES`, every page before the last fetched one was full, the last
fetched page is a stop page unless the ceiling was hit, and the collected
jobs are the concatenation of the fetched pages' entries. -/
theorem collect_spec (fetch : FetchOutcome) (page : Nat)
    (hle : page ≤ MAX_PAGES) :
    1 ≤ pagesFetched fetch page ∧
    page + pagesFetched fetch page - 1 ≤ MAX_PAGES ∧
    (∀ p, page ≤ p → p < page + pagesFetched fetch page - 1 →
      ∃ entries, fetch p = some entries ∧ entries ≠ [] ∧
        JOBS_PER_PAGE ≤ entries.length) ∧
    (stopPage (fetch (page + pagesFetched fetch page - 1)) ∨
      page + pagesFetched fetch page - 1 = MAX_PAGES) ∧
    collectPages fetch page =
      (List.range' page (pagesFetched fetch page)).flatMap
        (fun p => (fetch p).getD []) := by
  cases hf : fetch page with
  | none =>
    have hk : pagesFetched fetch page = 1 := by
      unfold pagesFetched
      rw [dif_pos hle, hf]
    have hcol : collectPages fetch page = [] := by
      unfold collectPages
      rw [dif_pos hle, hf]
    have he : page + 1 - 1 = page := by omega
    rw [hk, hcol, he]
    refine ⟨le_refl 1, hle, ?_, Or.inl (Or.inl hf), ?_⟩
    · intro p hp1 hp2; omega
    · simp [List.range'_one, hf]
  | some entries =>
    by_cases hemp : entries.isEmpty
    · have hnil : entries = [] := by
        cases entries with
        | nil => rfl
        | cons a t => simp [List.isEmpty] at hemp
      subst hnil
      have hk : pagesFetched fetch page = 1 := by
        unfold pagesFetched
        rw [dif_pos hle, hf]
        simp
      have hcol : collectPages fetch page = [] := by
        unfold collectPages
        rw [dif_pos hle, hf]
        simp
      have he : page + 1 - 1 = page := by omega
      rw [hk, hcol, he]
      refine ⟨le_refl 1, hle, ?_, Or.inl (Or.inr (Or.inl hf)), ?_⟩
      · intro p hp1 hp2; omega
      · simp [List.range'_one, hf]
    · by_cases hshort : entries.length < JOBS_PER_PAGE
      · have hk : pagesFetched fetch page = 1 := by
          unfold pagesFetched
          rw [dif_pos hle, hf]
          simp [hemp, hshort]
        have hcol : collectPages fetch page = entries := by
          unfold collectPages
          rw [dif_pos hle, hf]
          simp [hemp, hshort]
        have he : page + 1 - 1 = page := by omega
        rw [hk, hcol, he]
        refine ⟨le_refl 1, hle, ?_,
          Or.inl (Or.inr (Or.inr ⟨entries, hf, hshort⟩)), ?_⟩
        · intro p hp1 hp2; omega
        · simp [List.range'_one, hf]
      · by_cases hnext : page + 1 ≤ MAX_PAGES
        · obtain ⟨ih1, ih2, ih3, ih4, ih5⟩ := collect_spec fetch (page + 1) hnext
          have hk : pagesFetched fetch page =
              1 + pagesFetched fetch (page + 1) := by
            conv_lhs => rw [pagesFetched]
            rw [dif_pos hle, hf]
            simp [hemp, hshort]
          have hcol : collectPages fetch page =
              entries ++ collectPages fetch (page + 1) := by
            conv_lhs => rw [collectPages]
            rw [dif_pos hle, hf]
            simp [hemp, hshort]
          have harith : page + (1 + pagesFetched fetch (page + 1)) - 1 =
              page + 1 + pagesFetched fetch (page + 1) - 1 := by omega
          rw [hk, hcol, harith]
          refine ⟨by omega, ih2, ?_, ih4, ?_⟩
          · intro p hp1 hp2
            rcases Nat.eq_or_lt_of_le hp1 with heq | hlt
            · exact ⟨entries, heq ▸ hf, by simpa using hemp,
                Nat.le_of_not_lt hshort⟩
            · exact ih3 p hlt (by omega)
          · rw [ih5, Nat.add_comm 1 (pagesFetched fetch (page + 1)),
              List.range'_succ, List.flatMap_cons, hf]
            rfl
        · have hpage : page = MAX_PAGES := by omega
          have hk0 : pagesFetched fetch (page + 1) = 0 := by
            unfold pagesFetched
            rw [dif_neg hnext]
          have hcol0 : collectPages fetch (page + 1) = [] := by
            unfold collectPages
            rw [dif_neg hnext]
          have hk : pagesFetched fetch page = 1 := by
            conv_lhs => rw [pagesFetched]
            rw [dif_pos hle, hf]
            simp [hemp, hshort, hk0]
          have hcol : collectPages fetch page = entries := by
            conv_lhs => rw [collectPages]
            rw [dif_pos hle, hf]
            simp [hemp, hshort, hcol0]
          have he : page + 1 - 1 = page := by omega
          rw [hk, hcol, he]
          refine ⟨le_refl 1, hle, ?_, Or.inr hpage, ?_⟩
          · intro p hp1 hp2; omega
          · simp [List.range'_one, hf]
termination_by MAX_PAGES + 1 - page
decreasing_by omega

/-- C8: the page-collection loop always stops; it fetches at most
`MAX_PAGES` (20) pages; every page strictly before the last fetched one was a
full page; the last fetched page satisfies one of the stop conditions (fetch
failure after retries, zero entries, short page) unless the hard ceiling was
reached; and the result is the concatenation of the fetched pages'
entries in page order. -/
theorem c8_pagination_terminates (fetch : FetchOutcome) :
    1 ≤ pagesFetched fetch 1 ∧
    pagesFetched fetch 1 ≤ MAX_PAGES ∧
    (∀ p, 1 ≤ p → p < pagesFetched fetch 1 →
      ∃ entries, fetch p = some entries ∧ entries ≠ [] ∧
        JOBS_PER_PAGE ≤ entries.length) ∧
    (stopPage (fetch (pagesFetched fetch 1)) ∨
      pagesFetched fetch 1 = MAX_PAGES) ∧
    parse_job_board fetch =
      (List.range' 1 (pagesFetched fetch 1)).flatMap
        (fun p => (fetch p).getD []) := by
  obtain ⟨h1, h2, h3, h4, h5⟩ :=
    collect_spec fetch 1 (by norm_num [MAX_PAGES])
  have e : 1 + pagesFetched fetch 1 - 1 = pagesFetched fetch 1 := by
    omega
  rw [e] at h2 h3 h4
  exact ⟨h1, h2, h3, h4, h5⟩

end RPJobs
